import Mathlib

/-!
Verification of the batch-aware story synchronization and cache engine of
the kgnews repository (src/kgnews).  The Python source is shallowly embedded:

* JSON/Python values are modelled by `Value`;
* `Story.from_api_response` (src/kgnews/models/story.py),
  `Category.from_api_response` (src/kgnews/models/category.py),
  `get_categories` (src/kgnews/api/client.py),
  `get_cached_stories`, `save_stories`, `clear_old_caches`
  (src/kgnews/cache/manager.py) and
  `load_stories` (`MainScreen._load_stories`, src/kgnews/ui/screens/main_screen.py)
  are translated function by function;
* the filesystem used by the cache is modelled as an association list from
  file name to parsed file content (`none` = the file exists but is not
  valid JSON, so that `json.load` raises `JSONDecodeError`);
* Python's `datetime` stdlib (an external library from the point of view of
  this repository) is modelled by integer timestamps whose `isoformat`
  rendering is the decimal numeral: the model keeps the three properties the
  program relies on, namely that `isoformat` is injective, that its output
  never contains the character `Z`, and that `fromisoformat` parses
  `isoformat` output back to the original value.  `datetime.fromtimestamp`
  is range-bounded: a timestamp past the calendar range raises `ValueError`
  (which the callers catch and turn into a skipped record), and a timestamp
  past the platform `time_t` range raises `OverflowError`, which no `except`
  clause anywhere in the repository catches — the model keeps these three
  regimes apart (`fromtimestampE`), with the exact boundary constants
  idealising the calendar/platform limits.
-/

/-- Timestamps standing in for Python `datetime` values (see module comment). -/
abbrev DateTime := Nat

/-- Python/JSON values as they occur in the program: JSON null/bool/number/
string/array/object plus a `datetime` object (`dt`), which can appear as a
dictionary value handed to `Story.from_api_response`.  JSON numbers are
modelled as naturals; no claim depends on fractional or negative numbers. -/
inductive Value where
  | null
  | bool (b : Bool)
  | num (n : Nat)
  | str (s : String)
  | arr (items : List Value)
  | obj (fields : List (String × Value))
  | dt (d : DateTime)

/-- Decimal digits of `n`, most significant first, with explicit fuel so that
the recursion is structural (`natDigitsAux (n+1) n` is always enough fuel). -/
def natDigitsAux : Nat → Nat → List Char
  | 0, _ => []
  | fuel + 1, n =>
    if n < 10 then [Char.ofNat (48 + n)]
    else natDigitsAux fuel (n / 10) ++ [Char.ofNat (48 + n % 10)]

/-- Decimal rendering of a natural, modelling Python `str()` on numbers and
`datetime.isoformat()` on the timestamp model. -/
def natRepr (n : Nat) : String := String.mk (natDigitsAux (n + 1) n)

/-- Model of `datetime.isoformat()`. -/
def isoformat (d : DateTime) : String := natRepr d

def isDigitChar (c : Char) : Bool := 48 ≤ c.toNat && c.toNat ≤ 57

def digitVal (c : Char) : Nat := c.toNat - 48

def readDigits (l : List Char) : Nat := l.foldl (fun a c => 10 * a + digitVal c) 0

/-- Model of `datetime.fromisoformat`: accepts exactly the strings the model's
`isoformat` produces (non-empty digit strings) and inverts it on them. -/
def fromisoformat (s : String) : Option DateTime :=
  if !s.data.isEmpty && s.data.all isDigitChar then some (readDigits s.data) else none

/-- Model of `s.replace("Z", "+00:00")` from `Story.from_api_response`. -/
def replaceZList : List Char → List Char
  | [] => []
  | c :: rest => (if c = 'Z' then ['+', '0', '0', ':', '0', '0'] else [c]) ++ replaceZList rest

def replaceZ (s : String) : String := String.mk (replaceZList s.data)

/-- Python `str()` of a value.  `str(None) = "None"`; containers render to a
bracketed repr whose exact text the program never inspects, so it is kept
schematic here. -/
def pyStr : Value → String
  | .null => "None"
  | .bool b => if b then "True" else "False"
  | .num n => natRepr n
  | .str s => s
  | .arr _ => "[...]"
  | .obj _ => "\x7b...\x7d"
  | .dt d => natRepr d

/-- Python truthiness of a value (`if data["excerpt"]`, `if stories`, ...). -/
def pyTruthy : Value → Bool
  | .null => false
  | .bool b => b
  | .num n => n != 0
  | .str s => s != ""
  | .arr items => !items.isEmpty
  | .obj fields => !fields.isEmpty
  | .dt _ => true

/-- Lookup in a Python dictionary / in the modelled filesystem directory
listing, both represented as association lists keyed by strings. -/
def alLookup {α : Type} : List (String × α) → String → Option α
  | [], _ => none
  | (k, v) :: rest, key => if k = key then some v else alLookup rest key

/-- Insert-or-replace, modelling `d[key] = v` on a Python dictionary and
writing a file into the modelled cache directory. -/
def alInsert {α : Type} : List (String × α) → String → α → List (String × α)
  | [], key, v => [(key, v)]
  | (k, w) :: rest, key, v =>
    if k = key then (key, v) :: rest else (k, w) :: alInsert rest key v

/-- Substring test on character lists: Python's `needle in haystack` for
strings. -/
def strContainsChars (needle : List Char) : List Char → Bool
  | [] => needle.isEmpty
  | c :: rest => needle.isPrefixOf (c :: rest) || strContainsChars needle rest

/-- Python's `needle in haystack` on strings. -/
def strContains (needle haystack : String) : Bool :=
  strContainsChars needle.data haystack.data

/-- Whether a file name matches the `glob("*.json")` pattern used by
`clear_old_caches`, i.e. ends in `.json`. -/
def matchesGlobJson (name : String) : Bool :=
  ".json".data.reverse.isPrefixOf name.data.reverse

/-! ## Data models (src/kgnews/models/story.py, category.py) -/

/-- The `Story` dataclass. -/
structure Story where
  id : String
  title : String
  url : String
  source : String
  published_at : DateTime
  excerpt : Option String
deriving DecidableEq

/-- The `Category` dataclass. -/
structure Category where
  id : String
  name : String
  display_name : String
deriving DecidableEq

def required_fields : List String := ["id", "title", "url", "source", "published_at"]

/-- Largest timestamp `datetime.fromtimestamp` converts successfully in the
model: the end of year 9999 (UTC), the last datetime the library can
represent.  Above it the conversion fails. -/
def maxFromtimestamp : Nat := 253402300799

/-- The platform `time_t` bound: from this value on `datetime.fromtimestamp`
raises `OverflowError` instead of `ValueError`. -/
def timetLimit : Nat := 2 ^ 63

/-- How a `Story.from_api_response` call can fail: with a `ValueError`
(raised deliberately, or converted from `KeyError`/`TypeError`/
`AttributeError` by its own handlers — every caller in the repository
catches these and skips the record), or with an `OverflowError` escaping
`datetime.fromtimestamp`, which no `except` clause in the repository
catches, so it aborts the whole surrounding call. -/
inductive StoryError where
  | valueError (msg : String)
  | overflow
deriving DecidableEq

/-- Model of `datetime.fromtimestamp` on a (non-negative) number: in-range
timestamps convert, out-of-calendar-range ones raise `ValueError`, and ones
past the platform `time_t` range raise `OverflowError`. -/
def fromtimestampE (n : Nat) : Except StoryError DateTime :=
  if n ≤ maxFromtimestamp then .ok n
  else if n < timetLimit then .error (.valueError "year out of range")
  else .error .overflow

/-- The `published_at` normalisation inside `Story.from_api_response`:
ISO string (after replacing `Z`), numeric-string fallback (`float(s)` then
`fromtimestamp`, the string modelled by the same digit parser), numbers and
booleans via `fromtimestamp` (`bool` is a subclass of `int` in Python),
`datetime` passed through, anything else a `ValueError`. -/
def parse_published_at : Value → Except StoryError DateTime
  | .str s =>
    match fromisoformat (replaceZ s) with
    | some d => .ok d
    | none =>
      match fromisoformat s with
      | some d => fromtimestampE d
      | none => .error (.valueError "Invalid datetime format")
  | .num n => fromtimestampE n
  | .bool b => fromtimestampE (if b then 1 else 0)
  | .dt d => .ok d
  | .null => .error (.valueError "Invalid datetime type")
  | .arr _ => .error (.valueError "Invalid datetime type")
  | .obj _ => .error (.valueError "Invalid datetime type")

/-- `Story.from_api_response(data)`: validate that the five required keys are
present, normalise `published_at`, then build the story by `str()`-ing the
field values; `excerpt` is kept only when present and truthy. -/
def Story.from_api_response (data : List (String × Value)) : Except StoryError Story :=
  let missing := required_fields.filter (fun f => (alLookup data f).isNone)
  if missing.isEmpty then
    match parse_published_at ((alLookup data "published_at").getD .null) with
    | .error e => .error e
    | .ok pa =>
      .ok ⟨pyStr ((alLookup data "id").getD .null),
           pyStr ((alLookup data "title").getD .null),
           pyStr ((alLookup data "url").getD .null),
           pyStr ((alLookup data "source").getD .null),
           pa,
           match alLookup data "excerpt" with
           | some v => if pyTruthy v then some (pyStr v) else none
           | none => none⟩
  else .error (.valueError "Missing required fields")

def category_required_fields : List String := ["id", "name", "display_name"]

/-- `Category.from_api_response(data)`. -/
def Category.from_api_response (data : List (String × Value)) : Except String Category :=
  let missing := category_required_fields.filter (fun f => (alLookup data f).isNone)
  if missing.isEmpty then
    .ok ⟨pyStr ((alLookup data "id").getD .null),
         pyStr ((alLookup data "name").getD .null),
         pyStr ((alLookup data "display_name").getD .null)⟩
  else .error "Missing required fields"

/-! ## API client (src/kgnews/api/client.py) -/

/-- One iteration of the parsing loop in `APIClient.get_categories`:
`category_dict` is built with `cat_data.get(...)`, so an absent key
contributes Python `None` (represented by `Value.null`, as is a JSON null).
A non-dict element makes `.get` raise `AttributeError`, which none of the
`except` clauses of the loop catch (`.error`). -/
def parse_category_element (cat_data : Value) : Except Unit (Option Category) :=
  match cat_data with
  | .obj fields =>
    let category_dict : List (String × Value) :=
      [("id", (alLookup fields "id").getD .null),
       ("name", (alLookup fields "categoryId").getD .null),
       ("display_name", (alLookup fields "categoryName").getD .null)]
    match Category.from_api_response category_dict with
    | .ok c => .ok (some c)
    | .error _ => .ok none
  | _ => .error ()

def parse_category_list : List Value → Except Unit (List Category)
  | [] => .ok []
  | c :: rest => do
    let r ← parse_category_element c
    let others ← parse_category_list rest
    match r with
    | some cat => .ok (cat :: others)
    | none => .ok others

/-- `APIClient.get_categories` after a successful HTTP round trip returning
the JSON document `data`: `data.get("categories", [])` must be a list
(otherwise `APIResponseError` is raised), and each element is parsed via
`parse_category_element`.  A non-object `data` makes `.get` raise. -/
def get_categories (data : Value) : Except Unit (List Category) :=
  match data with
  | .obj fields =>
    match (alLookup fields "categories").getD (.arr []) with
    | .arr categories_data => parse_category_list categories_data
    | _ => .error ()
  | _ => .error ()

/-! ## Cache manager (src/kgnews/cache/manager.py)

The cache directory is an association list from file name to file content;
`none` content stands for a file `json.load` fails on. -/

abbrev FS := List (String × Option Value)

/-- `CacheManager._get_cache_path`. -/
def cachePath (category_id batch_id : String) : String :=
  category_id ++ "_" ++ batch_id ++ ".json"

/-- One iteration of the story-parsing loop of `get_cached_stories`: a
`Story.from_api_response` failing with `ValueError`/`KeyError` is logged and
skipped (`.ok none`).  A non-dict record always fails validation (membership
tests and indexing on it raise `TypeError`/fail, which `from_api_response`
converts to `ValueError`), hence is skipped as well.  An `OverflowError`
escaping the timestamp conversion is caught by no `except` clause and
aborts the whole lookup (`.error`). -/
def parse_cached_story (story_data : Value) : Except Unit (Option Story) :=
  match story_data with
  | .obj fields =>
    match Story.from_api_response fields with
    | .ok s => .ok (some s)
    | .error (.valueError _) => .ok none
    | .error .overflow => .error ()
  | _ => .ok none

def parse_cached_stories : List Value → Except Unit (List Story)
  | [] => .ok []
  | d :: rest =>
    match parse_cached_story d with
    | .error e => .error e
    | .ok r =>
      match parse_cached_stories rest with
      | .error e2 => .error e2
      | .ok others =>
        match r with
        | some s => .ok (s :: others)
        | none => .ok others

/-- `CacheManager.get_cached_stories`.  Returns `.ok none` for a missing
file, invalid JSON/`OSError` (content `none`), a non-object document, or a
document without the `"stories"` key.  When `data["stories"]` is a string or
a dict, Python iterates its characters resp. keys, none of which survive
story validation, yielding an empty list; iterating a null/bool/number
raises an uncaught `TypeError`, and a record whose timestamp conversion
overflows raises an uncaught `OverflowError` (both `.error`). -/
def get_cached_stories (fs : FS) (category_id batch_id : String) :
    Except Unit (Option (List Story)) :=
  match alLookup fs (cachePath category_id batch_id) with
  | none => .ok none
  | some none => .ok none
  | some (some data) =>
    match data with
    | .obj fields =>
      match alLookup fields "stories" with
      | none => .ok none
      | some (.arr stories_data) =>
        (match parse_cached_stories stories_data with
         | .ok stories => .ok (some stories)
         | .error e => .error e)
      | some (.str _) => .ok (some [])
      | some (.obj _) => .ok (some [])
      | some _ => .error ()
    | _ => .ok none

/-- The dictionary `save_stories` serialises for one story. -/
def story_to_dict (story : Story) : Value :=
  .obj [("id", .str story.id),
        ("title", .str story.title),
        ("url", .str story.url),
        ("source", .str story.source),
        ("published_at", .str (isoformat story.published_at)),
        ("excerpt", match story.excerpt with | some e => .str e | none => .null)]

/-- The JSON document `save_stories` writes. -/
def cache_file_value (category_id batch_id : String) (stories : List Story) : Value :=
  .obj [("batch_id", .str batch_id),
        ("category_id", .str category_id),
        ("stories", .arr (stories.map story_to_dict))]

/-- `CacheManager.save_stories` (the write itself always succeeds in the
model; an `OSError` is logged and swallowed by the source, which no claim
depends on). -/
def save_stories (fs : FS) (category_id batch_id : String) (stories : List Story) : FS :=
  alInsert fs (cachePath category_id batch_id)
    (some (cache_file_value category_id batch_id stories))

/-- The retention test of `clear_old_caches`: a file survives the sweep iff
it does not match `*.json` or its name contains `current_batch_id` as a
substring. -/
def keptByClear (current_batch_id name : String) : Bool :=
  !matchesGlobJson name || strContains current_batch_id name

/-- `CacheManager.clear_old_caches`: unlink every `*.json` file whose name
does not contain the current batch id. -/
def clear_old_caches (fs : FS) (current_batch_id : String) : FS :=
  fs.filter (fun e => keptByClear current_batch_id e.1)

/-! ## Refresh coordinator (`MainScreen._load_stories`) -/

/-- Outcome of one `APIClient.get_stories` call for a category: success with
the parsed stories and the batch id reported by the response, or an
`APIError`. -/
inductive FetchOut where
  | ok (stories : List Story) (batchId : String)
  | err
deriving DecidableEq

/-- The inner `fetch_category_stories` closure: on `APIError` it returns
`(category.name, [], "")`. -/
def fetch_category_stories (fetch : Category → FetchOut) (category : Category) :
    String × List Story × String :=
  match fetch category with
  | .ok stories batch_id => (category.name, stories, batch_id)
  | .err => (category.name, [], "")

/-- The screen state `_load_stories` reads and writes:
`stories_by_category` and the cache directory. -/
structure LoadState where
  mapping : List (String × List Story)
  fs : FS

/-- The cache-consultation loop (steps 2 and 3 of `_load_stories`): for each
selected category look up `(category.name, current_batch_id)`; a hit is
recorded for the mapping, a miss marks the category for fetching.  A raising
lookup propagates (aborting the refresh). -/
def classifyCategories (fs : FS) (current : String) :
    List Category → Except Unit (List (String × List Story) × List Category)
  | [] => .ok ([], [])
  | category :: rest => do
    let cached ← get_cached_stories fs category.name current
    let (hits, misses) ← classifyCategories fs current rest
    match cached with
    | some stories => .ok ((category.name, stories) :: hits, misses)
    | none => .ok (hits, category :: misses)

/-- Apply the cache hits to `stories_by_category` in order. -/
def applyHits (m : List (String × List Story)) :
    List (String × List Story) → List (String × List Story)
  | [] => m
  | (name, stories) :: rest => applyHits (alInsert m name stories) rest

/-- The result loop of `_load_stories` (step 4): for each fetch result, if
the story list is truthy (non-empty) store it in the mapping and save it to
the cache under the batch id the fetch response reported. -/
def storeResults (st : LoadState) : List (String × List Story × String) → LoadState
  | [] => st
  | (name, stories, batch_id) :: rest =>
    if stories.isEmpty then storeResults st rest
    else storeResults ⟨alInsert st.mapping name stories,
                       save_stories st.fs name batch_id stories⟩ rest

inductive LoadOutcome where
  | noCategories
  | noBatchId
  | done
deriving DecidableEq

/-- Result of one `_load_stories` call: the updated screen state, the value
of `self.current_batch_id`, the names of the categories that were dispatched
to `fetchStories`, and how the call ended. -/
structure LoadOut where
  state : LoadState
  current_batch_id : Option String
  fetched : List String
  outcome : LoadOutcome

/-- `MainScreen._load_stories`.  `batch_resp` is `batch_info.get("id")` from
`get_latest_batch`; `none` or `""` is falsy and aborts after being stored in
`self.current_batch_id`.  With no selected categories the method returns at
once.  Otherwise: classify against the cache, fetch the misses, store
non-empty results, and prune the cache against the resolved batch id. -/
def load_stories (fetch : Category → FetchOut) (st : LoadState)
    (prev_batch_id : Option String) (batch_resp : Option String)
    (categories : List Category) : Except Unit LoadOut :=
  match categories with
  | [] => .ok ⟨st, prev_batch_id, [], .noCategories⟩
  | _ :: _ =>
    match batch_resp with
    | none => .ok ⟨st, none, [], .noBatchId⟩
    | some b =>
      if b = "" then .ok ⟨st, some b, [], .noBatchId⟩
      else do
        let (hits, misses) ← classifyCategories st.fs b categories
        let results := misses.map (fetch_category_stories fetch)
        let st2 := storeResults ⟨applyHits st.mapping hits, st.fs⟩ results
        .ok ⟨⟨st2.mapping, clear_old_caches st2.fs b⟩, some b,
             misses.map (fun c => c.name), .done⟩

/-- How `MainScreen` reads the mapping for display:
`self.stories_by_category.get(name, [])`. -/
def displayedStories (mapping : List (String × List Story)) (name : String) : List Story :=
  (alLookup mapping name).getD []

/-! ## Basic lemmas: decimal codec, substring test, association lists -/

theorem digit_char_spec (n : Nat) (h : n < 10) :
    isDigitChar (Char.ofNat (48 + n)) = true ∧ digitVal (Char.ofNat (48 + n)) = n := by
  interval_cases n <;> exact ⟨by decide, by decide⟩

theorem readDigits_append (l : List Char) (c : Char) :
    readDigits (l ++ [c]) = 10 * readDigits l + digitVal c := by
  unfold readDigits
  rw [List.foldl_append]
  rfl

theorem natDigitsAux_spec (fuel : Nat) : ∀ n, n < fuel →
    readDigits (natDigitsAux fuel n) = n ∧ natDigitsAux fuel n ≠ [] ∧
    ∀ c ∈ natDigitsAux fuel n, isDigitChar c = true := by
  induction fuel with
  | zero => intro n h; omega
  | succ f ih =>
    intro n h
    by_cases h10 : n < 10
    · simp only [natDigitsAux, if_pos h10]
      refine ⟨?_, by simp, ?_⟩
      · have hd := (digit_char_spec n h10).2
        show readDigits [Char.ofNat (48 + n)] = n
        unfold readDigits
        simp [hd]
      · intro c hc
        simp only [List.mem_singleton] at hc
        subst hc
        exact (digit_char_spec n h10).1
    · have hne : 0 < n := by omega
      have hdiv : n / 10 < f := by
        have := Nat.div_lt_self hne (by omega : 1 < 10)
        omega
      obtain ⟨ih1, ih2, ih3⟩ := ih (n / 10) hdiv
      have hm : n % 10 < 10 := Nat.mod_lt _ (by omega)
      simp only [natDigitsAux, if_neg h10]
      refine ⟨?_, by simp, ?_⟩
      · rw [readDigits_append, ih1, (digit_char_spec (n % 10) hm).2]
        omega
      · intro c hc
        rcases List.mem_append.1 hc with h1 | h1
        · exact ih3 c h1
        · simp only [List.mem_singleton] at h1
          subst h1
          exact (digit_char_spec (n % 10) hm).1

theorem replaceZList_of_digits (l : List Char) (h : ∀ c ∈ l, isDigitChar c = true) :
    replaceZList l = l := by
  induction l with
  | nil => rfl
  | cons c rest ih =>
    have hc : c ≠ 'Z' := by
      intro he
      subst he
      have := h 'Z' (by simp)
      revert this
      decide
    simp only [replaceZList, if_neg hc, List.singleton_append]
    rw [ih (fun d hd => h d (by simp [hd]))]

theorem isoformat_roundtrip (d : DateTime) :
    replaceZ (isoformat d) = isoformat d ∧ fromisoformat (isoformat d) = some d := by
  obtain ⟨h1, h2, h3⟩ := natDigitsAux_spec (d + 1) d (by omega)
  have hdata : (isoformat d).data = natDigitsAux (d + 1) d := rfl
  constructor
  · show String.mk (replaceZList (isoformat d).data) = isoformat d
    rw [hdata, replaceZList_of_digits _ h3]
    rfl
  · unfold fromisoformat
    rw [hdata]
    have hne : (natDigitsAux (d + 1) d).isEmpty = false := by
      cases hd : natDigitsAux (d + 1) d with
      | nil => exact absurd hd h2
      | cons a l => rfl
    have hall : (natDigitsAux (d + 1) d).all isDigitChar = true := List.all_eq_true.2 h3
    rw [hne, hall]
    simp [h1]

theorem parse_published_at_isoformat (d : DateTime) :
    parse_published_at (.str (isoformat d)) = .ok d := by
  obtain ⟨h1, h2⟩ := isoformat_roundtrip d
  simp only [parse_published_at, h1, h2]

theorem alLookup_insert_self {α : Type} (m : List (String × α)) (k : String) (v : α) :
    alLookup (alInsert m k v) k = some v := by
  induction m with
  | nil => simp [alInsert, alLookup]
  | cons e rest ih =>
    obtain ⟨k2, v2⟩ := e
    by_cases hk : k2 = k
    · simp [alInsert, hk, alLookup]
    · simp [alInsert, hk, alLookup, ih]

theorem alLookup_insert_other {α : Type} (m : List (String × α)) (k key : String) (v : α)
    (h : k ≠ key) : alLookup (alInsert m k v) key = alLookup m key := by
  induction m with
  | nil => simp [alInsert, alLookup, h]
  | cons e rest ih =>
    obtain ⟨k2, v2⟩ := e
    by_cases hk : k2 = k
    · subst hk
      simp [alInsert, alLookup, h]
    · simp only [alInsert, if_neg hk, alLookup]
      by_cases hk2 : k2 = key
      · simp [hk2]
      · simp [hk2, ih]

theorem alLookup_filter_key {α : Type} (q : String → Bool) (m : List (String × α))
    (key : String) :
    alLookup (m.filter (fun e => q e.1)) key = if q key then alLookup m key else none := by
  induction m with
  | nil => cases hq : q key <;> simp [alLookup]
  | cons e rest ih =>
    obtain ⟨k2, v2⟩ := e
    by_cases hq2 : q k2
    · by_cases hk : k2 = key
      · subst hk
        simp [List.filter_cons, alLookup, hq2]
      · simp [List.filter_cons, alLookup, hq2, hk, ih]
    · by_cases hk : k2 = key
      · subst hk
        rw [Bool.not_eq_true] at hq2
        simp [List.filter_cons, alLookup, hq2, ih]
      · simp [List.filter_cons, alLookup, hq2, hk, ih]

theorem isPrefixOf_append_self (l r : List Char) : l.isPrefixOf (l ++ r) = true := by
  induction l with
  | nil => simp [List.isPrefixOf]
  | cons c cs ih => simp [List.isPrefixOf, ih]

theorem strContainsChars_append_middle (needle pre post : List Char) :
    strContainsChars needle (pre ++ (needle ++ post)) = true := by
  induction pre with
  | nil =>
    rw [List.nil_append]
    cases hn : needle ++ post with
    | nil =>
      have : needle = [] := (List.append_eq_nil.mp hn).1
      subst this
      rfl
    | cons c rest =>
      show (needle.isPrefixOf (c :: rest) || strContainsChars needle rest) = true
      have hp : needle.isPrefixOf (needle ++ post) = true := isPrefixOf_append_self _ _
      rw [hn] at hp
      rw [hp]
      rfl
  | cons c cs ih =>
    show (needle.isPrefixOf (c :: (cs ++ (needle ++ post))) ||
      strContainsChars needle (cs ++ (needle ++ post))) = true
    rw [ih]
    simp

theorem string_data_append (a b : String) : (a ++ b).data = a.data ++ b.data := by
  cases a
  cases b
  rfl

theorem strContains_cachePath (name b : String) : strContains b (cachePath name b) = true := by
  show strContainsChars b.data (cachePath name b).data = true
  have : (cachePath name b).data = (name.data ++ "_".data) ++ (b.data ++ ".json".data) := by
    show (name ++ "_" ++ b ++ ".json").data = _
    rw [string_data_append, string_data_append, string_data_append, List.append_assoc]
  rw [this]
  exact strContainsChars_append_middle _ _ _

theorem matchesGlobJson_cachePath (name b : String) :
    matchesGlobJson (cachePath name b) = true := by
  unfold matchesGlobJson
  have : (cachePath name b).data = (name ++ "_" ++ b).data ++ ".json".data := by
    show ((name ++ "_" ++ b) ++ ".json").data = _
    rw [string_data_append]
  rw [this, List.reverse_append]
  exact isPrefixOf_append_self _ _

theorem keptByClear_cachePath (name b : String) :
    keptByClear b (cachePath name b) = true := by
  unfold keptByClear
  rw [strContains_cachePath]
  simp

/-! ## Round-trip of a saved story -/

/-- Reading back a record written by `story_to_dict` always succeeds with a
story whose excerpt is normalised by the truthiness test (the timestamp is
an `isoformat` string, so the numeric `fromtimestamp` conversion, and with
it any overflow, is never reached). -/
theorem parse_story_to_dict (s : Story) :
    parse_cached_story (story_to_dict s) =
      .ok (some ⟨s.id, s.title, s.url, s.source, s.published_at,
        match s.excerpt with
        | some e => if e != "" then some e else none
        | none => none⟩) := by
  obtain ⟨i, t, u, src, pa, ex⟩ := s
  cases ex with
  | none =>
    show (match Story.from_api_response
        [("id", .str i), ("title", .str t), ("url", .str u), ("source", .str src),
         ("published_at", .str (isoformat pa)), ("excerpt", .null)] with
      | .ok s2 => Except.ok (some s2)
      | .error (.valueError _) => Except.ok none
      | .error .overflow => Except.error ()) = .ok (some ⟨i, t, u, src, pa, none⟩)
    rw [show Story.from_api_response
        [("id", .str i), ("title", .str t), ("url", .str u), ("source", .str src),
         ("published_at", .str (isoformat pa)), ("excerpt", .null)] =
        (match parse_published_at (.str (isoformat pa)) with
         | .error e => .error e
         | .ok pa2 => .ok ⟨i, t, u, src, pa2, none⟩) from rfl]
    rw [parse_published_at_isoformat]
  | some e =>
    show (match Story.from_api_response
        [("id", .str i), ("title", .str t), ("url", .str u), ("source", .str src),
         ("published_at", .str (isoformat pa)), ("excerpt", .str e)] with
      | .ok s2 => Except.ok (some s2)
      | .error (.valueError _) => Except.ok none
      | .error .overflow => Except.error ()) =
      .ok (some ⟨i, t, u, src, pa, if e != "" then some e else none⟩)
    rw [show Story.from_api_response
        [("id", .str i), ("title", .str t), ("url", .str u), ("source", .str src),
         ("published_at", .str (isoformat pa)), ("excerpt", .str e)] =
        (match parse_published_at (.str (isoformat pa)) with
         | .error e2 => .error e2
         | .ok pa2 => .ok ⟨i, t, u, src, pa2, if (e != "") then some e else none⟩) from rfl]
    rw [parse_published_at_isoformat]

theorem parse_story_roundtrip (s : Story) (h : s.excerpt ≠ some "") :
    parse_cached_story (story_to_dict s) = .ok (some s) := by
  rw [parse_story_to_dict]
  obtain ⟨i, t, u, src, pa, ex⟩ := s
  cases ex with
  | none => rfl
  | some e =>
    have he : e ≠ "" := fun hee => h (by rw [hee])
    have het : (e != "") = true := by simp [bne_iff_ne, he]
    show Except.ok (some (⟨i, t, u, src, pa, if e != "" then some e else none⟩ : Story)) = _
    rw [het]
    rfl

theorem parse_cached_stories_map (stories : List Story)
    (h : ∀ s ∈ stories, s.excerpt ≠ some "") :
    parse_cached_stories (stories.map story_to_dict) = .ok stories := by
  induction stories with
  | nil => rfl
  | cons s rest ih =>
    show (match parse_cached_story (story_to_dict s) with
      | .error e => Except.error e
      | .ok r =>
        match parse_cached_stories (rest.map story_to_dict) with
        | .error e2 => Except.error e2
        | .ok others =>
          match r with
          | some s2 => Except.ok (s2 :: others)
          | none => Except.ok others) = .ok (s :: rest)
    rw [parse_story_roundtrip s (h s (by simp)), ih (fun s2 hs2 => h s2 (by simp [hs2]))]

/-- Parsing saved records never reaches the overflow path: it always returns
some list. -/
theorem parse_saved_stories_ok (stories : List Story) :
    ∃ l, parse_cached_stories (stories.map story_to_dict) = .ok l := by
  induction stories with
  | nil => exact ⟨[], rfl⟩
  | cons s rest ih =>
    obtain ⟨l, hl⟩ := ih
    refine ⟨(⟨s.id, s.title, s.url, s.source, s.published_at,
      match s.excerpt with
      | some e => if e != "" then some e else none
      | none => none⟩ : Story) :: l, ?_⟩
    show (match parse_cached_story (story_to_dict s) with
      | .error e => Except.error e
      | .ok r =>
        match parse_cached_stories (rest.map story_to_dict) with
        | .error e2 => Except.error e2
        | .ok others =>
          match r with
          | some s2 => Except.ok (s2 :: others)
          | none => Except.ok others) = _
    rw [parse_story_to_dict, hl]

/-! ## Lemmas about the cache manager -/

/-- `get_cached_stories` only looks at the file stored under the queried
cache path. -/
theorem get_cached_stories_congr (fs1 fs2 : FS) (cid bid : String)
    (h : alLookup fs1 (cachePath cid bid) = alLookup fs2 (cachePath cid bid)) :
    get_cached_stories fs1 cid bid = get_cached_stories fs2 cid bid := by
  unfold get_cached_stories
  rw [h]

/-- Reduction of `get_cached_stories` once the persisted file is known to be
a JSON object. -/
theorem get_cached_stories_obj (fs : FS) (cid bid : String)
    (fields : List (String × Value))
    (h : alLookup fs (cachePath cid bid) = some (some (.obj fields))) :
    get_cached_stories fs cid bid =
      (match alLookup fields "stories" with
       | none => .ok none
       | some (.arr stories_data) =>
         (match parse_cached_stories stories_data with
          | .ok stories => .ok (some stories)
          | .error e => .error e)
       | some (.str _) => .ok (some [])
       | some (.obj _) => .ok (some [])
       | some _ => .error ()) := by
  unfold get_cached_stories
  rw [h]

/-- Reading back any file written by `save_stories` succeeds with a parsed
story list (whatever the entry's own category/batch strings are): saved
timestamps are `isoformat` strings, so no record can raise. -/
theorem get_on_cache_value (fs : FS) (cid bid n2 b2 : String) (ss2 : List Story)
    (h : alLookup fs (cachePath cid bid) = some (some (cache_file_value n2 b2 ss2))) :
    ∃ l, get_cached_stories fs cid bid = .ok (some l) := by
  obtain ⟨l, hl⟩ := parse_saved_stories_ok ss2
  refine ⟨l, ?_⟩
  rw [get_cached_stories_obj fs cid bid
    [("batch_id", .str b2), ("category_id", .str n2),
     ("stories", .arr (ss2.map story_to_dict))] h]
  show (match parse_cached_stories (ss2.map story_to_dict) with
    | Except.ok stories => Except.ok (some stories)
    | Except.error e => Except.error e) = Except.ok (some l)
  rw [hl]

theorem clear_old_caches_lookup (fs : FS) (b name : String) :
    alLookup (clear_old_caches fs b) name =
      if keptByClear b name then alLookup fs name else none :=
  alLookup_filter_key (keptByClear b) fs name

theorem clear_old_caches_idem (fs : FS) (b : String) :
    clear_old_caches (clear_old_caches fs b) b = clear_old_caches fs b := by
  unfold clear_old_caches
  exact List.filter_eq_self.mpr (fun e he => (List.mem_filter.mp he).2)

/-! ## Lemmas about the coordinator phases -/

/-- Hit detection per category, used to state the classification loop in
closed form. -/
def hitEntry (fs : FS) (current : String) (c : Category) : Option (String × List Story) :=
  match get_cached_stories fs c.name current with
  | .ok (some stories) => some (c.name, stories)
  | _ => none

def isMissCat (fs : FS) (current : String) (c : Category) : Bool :=
  match get_cached_stories fs c.name current with
  | .ok none => true
  | _ => false

def lookupOk (fs : FS) (current : String) (c : Category) : Bool :=
  match get_cached_stories fs c.name current with
  | .ok _ => true
  | .error _ => false

theorem classifyCategories_eq (fs : FS) (current : String) (cats : List Category)
    (h : ∀ c ∈ cats, lookupOk fs current c = true) :
    classifyCategories fs current cats =
      .ok (cats.filterMap (hitEntry fs current), cats.filter (isMissCat fs current)) := by
  induction cats with
  | nil => rfl
  | cons c rest ih =>
    have hc := h c (by simp)
    have hrest := ih (fun c2 hc2 => h c2 (by simp [hc2]))
    cases hg : get_cached_stories fs c.name current with
    | error e => rw [lookupOk, hg] at hc; exact absurd hc (by simp)
    | ok r =>
      show (do
        let cached ← get_cached_stories fs c.name current
        let (hits, misses) ← classifyCategories fs current rest
        match cached with
        | some stories => pure ((c.name, stories) :: hits, misses)
        | none => pure (hits, c :: misses)) = _
      rw [hg, hrest]
      cases r with
      | some stories =>
        simp only [List.filterMap_cons, List.filter_cons, hitEntry, isMissCat, hg]
        rfl
      | none =>
        simp only [List.filterMap_cons, List.filter_cons, hitEntry, isMissCat, hg]
        rfl

theorem classifyCategories_ok_lookups (fs : FS) (current : String) (cats : List Category)
    (hits : List (String × List Story)) (misses : List Category)
    (h : classifyCategories fs current cats = .ok (hits, misses)) :
    ∀ c ∈ cats, lookupOk fs current c = true := by
  induction cats generalizing hits misses with
  | nil => intro c hc; cases hc
  | cons c0 rest ih =>
    intro c hc
    rw [show classifyCategories fs current (c0 :: rest) = (do
      let cached ← get_cached_stories fs c0.name current
      let (hits2, misses2) ← classifyCategories fs current rest
      match cached with
      | some stories => pure ((c0.name, stories) :: hits2, misses2)
      | none => pure (hits2, c0 :: misses2)) from rfl] at h
    cases hg : get_cached_stories fs c0.name current with
    | error e => rw [hg] at h; cases h
    | ok r =>
      rw [hg] at h
      cases hr : classifyCategories fs current rest with
      | error e => rw [hr] at h; cases h
      | ok p =>
        rcases List.mem_cons.mp hc with hc0 | hcr
        · subst hc0
          rw [lookupOk, hg]
        · exact ih p.1 p.2 (by rw [hr]) c hcr

theorem storeResults_cons (st : LoadState) (n0 : String) (s0 : List Story) (b0 : String)
    (rest : List (String × List Story × String)) :
    storeResults st ((n0, s0, b0) :: rest) =
      if s0.isEmpty then storeResults st rest
      else storeResults ⟨alInsert st.mapping n0 s0, save_stories st.fs n0 b0 s0⟩ rest := rfl

theorem not_isEmpty_of_ne_nil {α : Type} (l : List α) (h : l ≠ []) : l.isEmpty = false := by
  cases l with
  | nil => exact absurd rfl h
  | cons a t => rfl

theorem applyHits_lookup_notmem (hits : List (String × List Story))
    (m : List (String × List Story)) (name : String)
    (h : ∀ e ∈ hits, e.1 ≠ name) :
    alLookup (applyHits m hits) name = alLookup m name := by
  induction hits generalizing m with
  | nil => rfl
  | cons e rest ih =>
    obtain ⟨n0, s0⟩ := e
    show alLookup (applyHits (alInsert m n0 s0) rest) name = _
    rw [ih (alInsert m n0 s0) (fun e2 he2 => h e2 (by simp [he2]))]
    exact alLookup_insert_other m n0 name s0 (h (n0, s0) (by simp))

theorem applyHits_lookup_mem (hits : List (String × List Story))
    (m : List (String × List Story)) (name : String) (stories : List Story)
    (hmem : (name, stories) ∈ hits) (hnodup : (hits.map Prod.fst).Nodup) :
    alLookup (applyHits m hits) name = some stories := by
  induction hits generalizing m with
  | nil => cases hmem
  | cons e rest ih =>
    obtain ⟨n0, s0⟩ := e
    show alLookup (applyHits (alInsert m n0 s0) rest) name = some stories
    rcases List.mem_cons.mp hmem with he | hr
    · rw [Prod.mk.injEq] at he
      obtain ⟨he1, he2⟩ := he
      subst he1
      subst he2
      have hnot : ∀ e2 ∈ rest, e2.1 ≠ name := by
        intro e2 he2 hne
        have hnm : name ∈ rest.map Prod.fst := List.mem_map.mpr ⟨e2, he2, hne⟩
        exact (List.nodup_cons.mp hnodup).1 hnm
      rw [applyHits_lookup_notmem rest _ name hnot]
      exact alLookup_insert_self m name stories
    · exact ih (alInsert m n0 s0) hr (List.nodup_cons.mp hnodup).2

theorem storeResults_mapping_notmem (results : List (String × List Story × String))
    (st : LoadState) (name : String) (h : ∀ r ∈ results, r.1 ≠ name) :
    alLookup (storeResults st results).mapping name = alLookup st.mapping name := by
  induction results generalizing st with
  | nil => rfl
  | cons r rest ih =>
    obtain ⟨n0, s0, b0⟩ := r
    have hn0 : n0 ≠ name := h (n0, s0, b0) (by simp)
    have htail : ∀ r2 ∈ rest, r2.1 ≠ name := fun r2 hr2 => h r2 (by simp [hr2])
    rw [storeResults_cons]
    by_cases hs : s0.isEmpty
    · rw [if_pos hs]
      exact ih st htail
    · rw [if_neg hs, ih _ htail]
      exact alLookup_insert_other st.mapping n0 name s0 hn0

theorem storeResults_mapping_mem (results : List (String × List Story × String))
    (st : LoadState) (name : String) (stories : List Story) (batchId : String)
    (hmem : (name, stories, batchId) ∈ results)
    (hnodup : (results.map (fun r => r.1)).Nodup)
    (hne : stories ≠ []) :
    alLookup (storeResults st results).mapping name = some stories := by
  induction results generalizing st with
  | nil => cases hmem
  | cons r rest ih =>
    obtain ⟨n0, s0, b0⟩ := r
    rw [storeResults_cons]
    rcases List.mem_cons.mp hmem with he | hr
    · rw [Prod.mk.injEq, Prod.mk.injEq] at he
      obtain ⟨he1, he2, he3⟩ := he
      subst he1
      subst he2
      subst he3
      rw [if_neg (by rw [not_isEmpty_of_ne_nil stories hne]; exact Bool.false_ne_true)]
      have hnot : ∀ r2 ∈ rest, r2.1 ≠ name := by
        intro r2 hr2 hne2
        exact (List.nodup_cons.mp hnodup).1 (List.mem_map.mpr ⟨r2, hr2, hne2⟩)
      rw [storeResults_mapping_notmem rest _ name hnot]
      exact alLookup_insert_self st.mapping name stories
    · by_cases hs : s0.isEmpty
      · rw [if_pos hs]
        exact ih st hr (List.nodup_cons.mp hnodup).2
      · rw [if_neg hs]
        exact ih _ hr (List.nodup_cons.mp hnodup).2

/-- The mapping entry of a category whose fetch failed or came back empty is
left untouched by the result loop. -/
theorem storeResults_mapping_mem_empty (results : List (String × List Story × String))
    (st : LoadState) (name : String) (batchId : String)
    (hmem : (name, [], batchId) ∈ results)
    (hnodup : (results.map (fun r => r.1)).Nodup) :
    alLookup (storeResults st results).mapping name = alLookup st.mapping name := by
  induction results generalizing st with
  | nil => cases hmem
  | cons r rest ih =>
    obtain ⟨n0, s0, b0⟩ := r
    rw [storeResults_cons]
    rcases List.mem_cons.mp hmem with he | hr
    · rw [Prod.mk.injEq, Prod.mk.injEq] at he
      obtain ⟨he1, he2, he3⟩ := he
      subst he1
      subst he3
      rw [if_pos (by rw [← he2]; rfl)]
      have hnot : ∀ r2 ∈ rest, r2.1 ≠ name := by
        intro r2 hr2 hne2
        exact (List.nodup_cons.mp hnodup).1 (List.mem_map.mpr ⟨r2, hr2, hne2⟩)
      exact storeResults_mapping_notmem rest st name hnot
    · by_cases hs : s0.isEmpty
      · rw [if_pos hs]
        exact ih st hr (List.nodup_cons.mp hnodup).2
      · rw [if_neg hs]
        have hn0 : n0 ≠ name := by
          intro hne2
          exact (List.nodup_cons.mp hnodup).1 (List.mem_map.mpr ⟨(name, [], batchId), hr, hne2 ▸ rfl⟩)
        rw [ih _ hr (List.nodup_cons.mp hnodup).2]
        exact alLookup_insert_other st.mapping n0 name s0 hn0

/-- The cache file a fetch result would write, if any. -/
def writePath (r : String × List Story × String) : Option String :=
  if r.2.1.isEmpty then none else some (cachePath r.1 r.2.2)

theorem storeResults_fs_not_written (results : List (String × List Story × String))
    (st : LoadState) (p : String)
    (h : ∀ r ∈ results, writePath r ≠ some p) :
    alLookup (storeResults st results).fs p = alLookup st.fs p := by
  induction results generalizing st with
  | nil => rfl
  | cons r rest ih =>
    obtain ⟨n0, s0, b0⟩ := r
    have htail : ∀ r2 ∈ rest, writePath r2 ≠ some p := fun r2 hr2 => h r2 (by simp [hr2])
    rw [storeResults_cons]
    by_cases hs : s0.isEmpty
    · rw [if_pos hs]
      exact ih st htail
    · rw [if_neg hs, ih _ htail]
      have hp : cachePath n0 b0 ≠ p := by
        intro he
        apply h (n0, s0, b0) (by simp)
        rw [writePath, if_neg hs, he]
      exact alLookup_insert_other st.fs (cachePath n0 b0) p _ hp

/-- Every lookup after the result loop either sees the original file or a
file freshly written by `save_stories` for one of the results. -/
theorem storeResults_fs_cases (results : List (String × List Story × String))
    (st : LoadState) (p : String) :
    alLookup (storeResults st results).fs p = alLookup st.fs p ∨
    ∃ n ss b, (n, ss, b) ∈ results ∧ ss ≠ [] ∧ p = cachePath n b ∧
      alLookup (storeResults st results).fs p = some (some (cache_file_value n b ss)) := by
  induction results generalizing st with
  | nil => exact Or.inl rfl
  | cons r rest ih =>
    obtain ⟨n0, s0, b0⟩ := r
    rw [storeResults_cons]
    by_cases hs : s0.isEmpty
    · rw [if_pos hs]
      rcases ih st with h | ⟨n, ss, b, hmem, hne, hp, hval⟩
      · exact Or.inl h
      · exact Or.inr ⟨n, ss, b, by simp [hmem], hne, hp, hval⟩
    · rw [if_neg hs]
      have hs0 : s0 ≠ [] := by
        intro he
        rw [he] at hs
        exact hs rfl
      rcases ih ⟨alInsert st.mapping n0 s0, save_stories st.fs n0 b0 s0⟩ with h | ⟨n, ss, b, hmem, hne, hp, hval⟩
      · by_cases hp0 : cachePath n0 b0 = p
        · refine Or.inr ⟨n0, s0, b0, by simp, hs0, hp0.symm, ?_⟩
          rw [h]
          show alLookup (alInsert st.fs (cachePath n0 b0) _) p = _
          rw [← hp0]
          exact alLookup_insert_self st.fs (cachePath n0 b0) _
        · refine Or.inl ?_
          rw [h]
          show alLookup (alInsert st.fs (cachePath n0 b0) _) p = _
          exact alLookup_insert_other st.fs (cachePath n0 b0) p _ hp0
      · exact Or.inr ⟨n, ss, b, by simp [hmem], hne, hp, hval⟩

/-- When the per-cycle write paths are distinct, each successful non-empty
fetch result is found in the cache, under the batch id the fetch response
reported, exactly as `save_stories` serialised it. -/
theorem storeResults_fs_written (results : List (String × List Story × String))
    (st : LoadState) (name : String) (stories : List Story) (batchId : String)
    (hmem : (name, stories, batchId) ∈ results)
    (hne : stories ≠ [])
    (hnodup : (results.filterMap writePath).Nodup) :
    alLookup (storeResults st results).fs (cachePath name batchId) =
      some (some (cache_file_value name batchId stories)) := by
  induction results generalizing st with
  | nil => cases hmem
  | cons r rest ih =>
    obtain ⟨n0, s0, b0⟩ := r
    rw [storeResults_cons]
    rcases List.mem_cons.mp hmem with he | hr
    · rw [Prod.mk.injEq, Prod.mk.injEq] at he
      obtain ⟨he1, he2, he3⟩ := he
      subst he1
      subst he2
      subst he3
      have hs : stories.isEmpty = false := not_isEmpty_of_ne_nil stories hne
      rw [if_neg (by rw [hs]; exact Bool.false_ne_true)]
      have hw : writePath (name, stories, batchId) = some (cachePath name batchId) := by
        rw [writePath, if_neg (by rw [hs]; exact Bool.false_ne_true)]
      have hnodup2 := hnodup
      rw [List.filterMap_cons, hw] at hnodup2
      have hnot : ∀ r2 ∈ rest, writePath r2 ≠ some (cachePath name batchId) := by
        intro r2 hr2 hne2
        have hp2 : cachePath name batchId ∈ rest.filterMap writePath :=
          List.mem_filterMap.mpr ⟨r2, hr2, hne2⟩
        exact (List.nodup_cons.mp hnodup2).1 hp2
      rw [storeResults_fs_not_written rest _ _ hnot]
      exact alLookup_insert_self st.fs (cachePath name batchId) _
    · have hnodup2 : (rest.filterMap writePath).Nodup := by
        rw [List.filterMap_cons] at hnodup
        cases hw : writePath (n0, s0, b0) with
        | none => rw [hw] at hnodup; exact hnodup
        | some q => rw [hw] at hnodup; exact (List.nodup_cons.mp hnodup).2
      by_cases hs : s0.isEmpty
      · rw [if_pos hs]
        exact ih st hr hnodup2
      · rw [if_neg hs]
        exact ih _ hr hnodup2

theorem fetch_category_stories_fst (fetch : Category → FetchOut) (c : Category) :
    (fetch_category_stories fetch c).1 = c.name := by
  unfold fetch_category_stories
  cases fetch c <;> rfl

theorem results_names (fetch : Category → FetchOut) (misses : List Category) :
    (misses.map (fetch_category_stories fetch)).map (fun r => r.1) =
      misses.map (fun c => c.name) := by
  induction misses with
  | nil => rfl
  | cons c rest ih =>
    show (fetch_category_stories fetch c).1 :: _ = c.name :: _
    rw [fetch_category_stories_fst, ih]

theorem hitEntry_fst (fs : FS) (b : String) (c : Category) (e : String × List Story)
    (h : hitEntry fs b c = some e) : e.1 = c.name := by
  unfold hitEntry at h
  cases hg : get_cached_stories fs c.name b with
  | error e2 => rw [hg] at h; cases h
  | ok r =>
    cases r with
    | some ss => rw [hg] at h; injection h with h2; rw [← h2]
    | none => rw [hg] at h; cases h

theorem hits_names_sublist (fs : FS) (b : String) (cats : List Category) :
    List.Sublist ((cats.filterMap (hitEntry fs b)).map Prod.fst)
      (cats.map (fun c => c.name)) := by
  induction cats with
  | nil => exact List.Sublist.refl _
  | cons c rest ih =>
    rw [List.filterMap_cons]
    cases he : hitEntry fs b c with
    | none => exact List.Sublist.cons _ ih
    | some e =>
      rw [List.map_cons, List.map_cons, hitEntry_fst fs b c e he]
      exact List.Sublist.cons₂ _ ih

/-- Unfolding of a completed `_load_stories` run: recover the classification
and the composition of the phases. -/
theorem load_stories_done (fetch : Category → FetchOut) (st : LoadState)
    (pc : Option String) (b : String) (cats : List Category) (out : LoadOut)
    (hload : load_stories fetch st pc (some b) cats = .ok out)
    (hdone : out.outcome = .done) :
    cats ≠ [] ∧ b ≠ "" ∧
    ∃ hits misses,
      classifyCategories st.fs b cats = .ok (hits, misses) ∧
      out.state.mapping = (storeResults ⟨applyHits st.mapping hits, st.fs⟩
        (misses.map (fetch_category_stories fetch))).mapping ∧
      out.state.fs = clear_old_caches (storeResults ⟨applyHits st.mapping hits, st.fs⟩
        (misses.map (fetch_category_stories fetch))).fs b ∧
      out.fetched = misses.map (fun c => c.name) ∧
      out.current_batch_id = some b := by
  cases cats with
  | nil =>
    rw [show load_stories fetch st pc (some b) [] = .ok ⟨st, pc, [], .noCategories⟩ from rfl]
      at hload
    injection hload with h
    rw [← h] at hdone
    exact LoadOutcome.noConfusion hdone
  | cons c rest =>
    by_cases hb : b = ""
    · subst hb
      rw [show load_stories fetch st pc (some "") (c :: rest) =
        .ok ⟨st, some "", [], .noBatchId⟩ from rfl] at hload
      injection hload with h
      rw [← h] at hdone
      exact LoadOutcome.noConfusion hdone
    · have hred : load_stories fetch st pc (some b) (c :: rest) = (do
        let (hits, misses) ← classifyCategories st.fs b (c :: rest)
        let results := misses.map (fetch_category_stories fetch)
        let st2 := storeResults ⟨applyHits st.mapping hits, st.fs⟩ results
        Except.ok (⟨⟨st2.mapping, clear_old_caches st2.fs b⟩, some b,
          misses.map (fun c2 => c2.name), .done⟩ : LoadOut)) := by
        show (if b = "" then _ else _) = _
        rw [if_neg hb]
      rw [hred] at hload
      cases hcl : classifyCategories st.fs b (c :: rest) with
      | error e => rw [hcl] at hload; cases hload
      | ok pr =>
        obtain ⟨hits, misses⟩ := pr
        rw [hcl] at hload
        injection hload with h
        refine ⟨List.cons_ne_nil c rest, hb, hits, misses, rfl, ?_, ?_, ?_, ?_⟩ <;>
          rw [← h]

/-- Per-category characterisation of the final `stories_by_category` after a
completed refresh cycle: a cache hit is installed, a non-empty successful
fetch is installed, and a category whose fetch failed or produced no stories
keeps its previous mapping entry. -/
theorem load_mapping_spec (fetch : Category → FetchOut) (st : LoadState)
    (pc : Option String) (b : String) (cats : List Category) (out : LoadOut)
    (c : Category)
    (hload : load_stories fetch st pc (some b) cats = .ok out)
    (hdone : out.outcome = .done)
    (hnodup : (cats.map (fun c2 => c2.name)).Nodup)
    (hc : c ∈ cats) :
    (∀ ss, get_cached_stories st.fs c.name b = .ok (some ss) →
      alLookup out.state.mapping c.name = some ss) ∧
    (get_cached_stories st.fs c.name b = .ok none →
      (∀ ss bid, fetch c = .ok ss bid → ss ≠ [] →
        alLookup out.state.mapping c.name = some ss) ∧
      ((fetch c = .err ∨ ∃ bid, fetch c = .ok [] bid) →
        alLookup out.state.mapping c.name = alLookup st.mapping c.name)) := by
  obtain ⟨-, -, hits, misses, hcl, hmap, -, -, -⟩ :=
    load_stories_done fetch st pc b cats out hload hdone
  have hlk := classifyCategories_ok_lookups st.fs b cats hits misses hcl
  have heq := classifyCategories_eq st.fs b cats hlk
  rw [hcl] at heq
  injection heq with heq2
  have hhits : hits = cats.filterMap (hitEntry st.fs b) := congrArg Prod.fst heq2
  have hmisses : misses = cats.filter (isMissCat st.fs b) := congrArg Prod.snd heq2
  have hinj : ∀ x ∈ cats, ∀ y ∈ cats, x.name = y.name → x = y := by
    intro x hx y hy hxy
    exact List.inj_on_of_nodup_map hnodup hx hy hxy
  constructor
  · intro ss hget
    have hhe : hitEntry st.fs b c = some (c.name, ss) := by
      unfold hitEntry
      rw [hget]
    have hmemhits : (c.name, ss) ∈ hits := by
      rw [hhits]
      exact List.mem_filterMap.mpr ⟨c, hc, hhe⟩
    have hhn : (hits.map Prod.fst).Nodup := by
      rw [hhits]
      exact List.Nodup.sublist (hits_names_sublist st.fs b cats) hnodup
    have hnotres : ∀ r ∈ misses.map (fetch_category_stories fetch), r.1 ≠ c.name := by
      intro r hr hne
      obtain ⟨c2, hc2, hr2⟩ := List.mem_map.mp hr
      rw [← hr2, fetch_category_stories_fst] at hne
      rw [hmisses] at hc2
      obtain ⟨hc2cats, hc2miss⟩ := List.mem_filter.mp hc2
      have hce : c2 = c := hinj c2 hc2cats c hc hne
      rw [hce] at hc2miss
      unfold isMissCat at hc2miss
      rw [hget] at hc2miss
      exact Bool.noConfusion hc2miss
    rw [hmap, storeResults_mapping_notmem _ _ _ hnotres]
    exact applyHits_lookup_mem hits st.mapping c.name ss hmemhits hhn
  · intro hget
    have hmiss : c ∈ misses := by
      rw [hmisses]
      refine List.mem_filter.mpr ⟨hc, ?_⟩
      unfold isMissCat
      rw [hget]
    have hnothits : ∀ e ∈ hits, e.1 ≠ c.name := by
      intro e he hne
      rw [hhits] at he
      obtain ⟨c2, hc2, he2⟩ := List.mem_filterMap.mp he
      have hn2 : e.1 = c2.name := hitEntry_fst st.fs b c2 e he2
      have hce : c2 = c := hinj c2 hc2 c hc (by rw [← hn2]; exact hne)
      rw [hce] at he2
      unfold hitEntry at he2
      rw [hget] at he2
      exact Option.noConfusion he2
    have hstage1 : alLookup (applyHits st.mapping hits) c.name = alLookup st.mapping c.name :=
      applyHits_lookup_notmem hits st.mapping c.name hnothits
    have hresnodup : ((misses.map (fetch_category_stories fetch)).map (fun r => r.1)).Nodup := by
      rw [results_names]
      refine List.Nodup.sublist ?_ hnodup
      rw [hmisses]
      exact List.Sublist.map (fun c2 => c2.name) (List.filter_sublist cats)
    constructor
    · intro ss bid hfetch hne
      have hmemres : (c.name, ss, bid) ∈ misses.map (fetch_category_stories fetch) := by
        refine List.mem_map.mpr ⟨c, hmiss, ?_⟩
        unfold fetch_category_stories
        rw [hfetch]
      rw [hmap]
      exact storeResults_mapping_mem _ _ _ _ _ hmemres hresnodup hne
    · intro hfail
      have hmemres : ∃ bid2, (c.name, [], bid2) ∈ misses.map (fetch_category_stories fetch) := by
        rcases hfail with hf | ⟨bid, hf⟩
        · refine ⟨"", List.mem_map.mpr ⟨c, hmiss, ?_⟩⟩
          unfold fetch_category_stories
          rw [hf]
        · refine ⟨bid, List.mem_map.mpr ⟨c, hmiss, ?_⟩⟩
          unfold fetch_category_stories
          rw [hf]
      obtain ⟨bid2, hmem2⟩ := hmemres
      rw [hmap, storeResults_mapping_mem_empty _ _ _ _ hmem2 hresnodup]
      exact hstage1

/-- A non-empty successful fetch result always leaves some `save_stories`
artefact at its write path (possibly a colliding later write, but always a
well-formed cache file). -/
theorem storeResults_fs_mem (results : List (String × List Story × String))
    (st : LoadState) (name : String) (stories : List Story) (batchId : String)
    (hmem : (name, stories, batchId) ∈ results) (hne : stories ≠ []) :
    ∃ n2 b2 ss2, alLookup (storeResults st results).fs (cachePath name batchId) =
      some (some (cache_file_value n2 b2 ss2)) := by
  induction results generalizing st with
  | nil => cases hmem
  | cons r rest ih =>
    obtain ⟨n0, s0, b0⟩ := r
    rw [storeResults_cons]
    rcases List.mem_cons.mp hmem with he | hr
    · rw [Prod.mk.injEq, Prod.mk.injEq] at he
      obtain ⟨he1, he2, he3⟩ := he
      subst he1
      subst he2
      subst he3
      have hs : stories.isEmpty = false := not_isEmpty_of_ne_nil stories hne
      rw [if_neg (by rw [hs]; exact Bool.false_ne_true)]
      set st2 : LoadState := ⟨alInsert st.mapping name stories,
        save_stories st.fs name batchId stories⟩ with hst2
      rcases storeResults_fs_cases rest st2 (cachePath name batchId) with h | ⟨n, ss, bb, -, -, -, hval⟩
      · refine ⟨name, batchId, stories, ?_⟩
        rw [h, hst2]
        exact alLookup_insert_self st.fs (cachePath name batchId) _
      · exact ⟨n, bb, ss, hval⟩
    · by_cases hs : s0.isEmpty
      · rw [if_pos hs]
        exact ih st hr
      · rw [if_neg hs]
        exact ih _ hr

/-- After a completed cycle, a category that was a cache hit or had a
non-empty successful fetch whose response batch id matches the resolved one
is a cache hit again against the resulting filesystem. -/
theorem load_fs_good (fetch : Category → FetchOut) (st : LoadState)
    (pc : Option String) (b : String) (cats : List Category) (out : LoadOut)
    (c : Category)
    (hload : load_stories fetch st pc (some b) cats = .ok out)
    (hdone : out.outcome = .done)
    (hc : c ∈ cats)
    (hgood : (∃ ss, get_cached_stories st.fs c.name b = .ok (some ss)) ∨
             (∃ ss, fetch c = .ok ss b ∧ ss ≠ [])) :
    ∃ ss, get_cached_stories out.state.fs c.name b = .ok (some ss) := by
  obtain ⟨-, -, hits, misses, hcl, -, hfs, -, -⟩ :=
    load_stories_done fetch st pc b cats out hload hdone
  have hlk := classifyCategories_ok_lookups st.fs b cats hits misses hcl
  have heq := classifyCategories_eq st.fs b cats hlk
  rw [hcl] at heq
  injection heq with heq2
  have hmisses : misses = cats.filter (isMissCat st.fs b) := congrArg Prod.snd heq2
  set st2 : LoadState := ⟨applyHits st.mapping hits, st.fs⟩ with hst2
  set results := misses.map (fetch_category_stories fetch) with hres
  have hclear : alLookup out.state.fs (cachePath c.name b) =
      alLookup (storeResults st2 results).fs (cachePath c.name b) := by
    rw [hfs, clear_old_caches_lookup, if_pos (keptByClear_cachePath c.name b)]
  have hcongr : get_cached_stories out.state.fs c.name b =
      get_cached_stories (storeResults st2 results).fs c.name b :=
    get_cached_stories_congr _ _ _ _ hclear
  rw [hcongr]
  -- either the category was a hit, or it was a miss and its fetch wrote a file
  cases hgg : get_cached_stories st.fs c.name b with
  | error e =>
    have := hlk c hc
    unfold lookupOk at this
    rw [hgg] at this
    exact Bool.noConfusion this
  | ok r =>
    cases r with
    | some ss =>
      rcases storeResults_fs_cases results st2 (cachePath c.name b) with h | ⟨n, ss2, bb, -, -, -, hval⟩
      · rw [get_cached_stories_congr _ st.fs _ _ (by rw [h])]
        exact ⟨ss, hgg⟩
      · exact get_on_cache_value _ _ _ _ _ _ hval
    | none =>
      rcases hgood with ⟨ss, hss⟩ | ⟨ss, hfetch, hne⟩
      · rw [hgg] at hss
        exact absurd hss (by intro hh; injection hh with hh2; cases hh2)
      · have hmiss : c ∈ misses := by
          rw [hmisses]
          refine List.mem_filter.mpr ⟨hc, ?_⟩
          unfold isMissCat
          rw [hgg]
        have hmemres : (c.name, ss, b) ∈ results := by
          rw [hres]
          refine List.mem_map.mpr ⟨c, hmiss, ?_⟩
          unfold fetch_category_stories
          rw [hfetch]
        obtain ⟨n2, b2, ss2, hval⟩ := storeResults_fs_mem results st2 c.name ss b hmemres hne
        exact get_on_cache_value _ _ _ _ _ _ hval

/-! ## Shared concrete values for scenario runs -/

def exStory : Story := ⟨"s1", "Title", "http://x", "src", 0, none⟩

def exStoryB1 : Story := ⟨"old", "Old title", "http://old", "src", 0, none⟩

def catTech : Category := ⟨"uuid-tech", "tech", "Technology"⟩

/-! ## Claim C5 -/

/-- C5 as stated is false: `clear_old_caches` keeps a `.json` file whenever
the current batch id occurs anywhere in its file name, so an entry saved for
category `ab1x` under batch `b2` survives pruning for current batch `b1`
even though its batch id differs. -/
theorem c5_counterexample :
    clear_old_caches (save_stories [] "ab1x" "b2" [exStory]) "b1" =
      save_stories [] "ab1x" "b2" [exStory] ∧ ("b2" : String) ≠ "b1" :=
  ⟨rfl, by decide⟩

/-- C5 amended: `clear_old_caches(currentBatchId)` retains exactly the
entries that do not match `*.json` or whose file name contains
currentBatchId as a substring; in particular an entry stored under
`(categoryKey, currentBatchId)` is never deleted. -/
theorem c5_amended_prune (fs : FS) (current : String) :
    (∀ e ∈ fs, (e ∈ clear_old_caches fs current ↔
      (matchesGlobJson e.1 = false ∨ strContains current e.1 = true))) ∧
    (∀ cid : String, alLookup (clear_old_caches fs current) (cachePath cid current) =
      alLookup fs (cachePath cid current)) := by
  constructor
  · intro e he
    unfold clear_old_caches
    rw [List.mem_filter]
    unfold keptByClear
    constructor
    · intro hin
      obtain ⟨-, hk⟩ := hin
      cases hmg : matchesGlobJson e.1 with
      | false => exact Or.inl rfl
      | true =>
        refine Or.inr ?_
        rw [hmg] at hk
        simpa using hk
    · intro h
      refine ⟨he, ?_⟩
      rcases h with h | h
      · rw [h]
        rfl
      · rw [h]
        simp
  · intro cid
    rw [clear_old_caches_lookup, if_pos (keptByClear_cachePath cid current)]

theorem c5_witness :
    ((cachePath "x" "b1", (none : Option Value)) ∈
        clear_old_caches [(cachePath "x" "b1", none)] "b1" ↔
      (matchesGlobJson (cachePath "x" "b1") = false ∨
        strContains "b1" (cachePath "x" "b1") = true)) ∧
    alLookup (clear_old_caches [(cachePath "x" "b1", (none : Option Value))] "b1")
      (cachePath "x" "b1") = some none := by
  refine ⟨(c5_amended_prune [(cachePath "x" "b1", none)] "b1").1 _ (by simp), ?_⟩
  rw [(c5_amended_prune [(cachePath "x" "b1", none)] "b1").2 "x"]
  rfl

/-! ## Claim C6 -/

/-- C6: a cache lookup whose persisted file is missing, is not valid JSON,
is not a JSON object, or lacks the `stories` key returns absent (`.ok none`)
and never raises. -/
theorem c6_corrupt_lookup_absent (fs : FS) (cid bid : String)
    (h : alLookup fs (cachePath cid bid) = none ∨
         alLookup fs (cachePath cid bid) = some none ∨
         (∃ v, alLookup fs (cachePath cid bid) = some (some v) ∧
           ∀ fields, v ≠ Value.obj fields) ∨
         (∃ fields, alLookup fs (cachePath cid bid) = some (some (.obj fields)) ∧
           alLookup fields "stories" = none)) :
    get_cached_stories fs cid bid = .ok none := by
  rcases h with h | h | ⟨v, h, hv⟩ | ⟨fields, h, hst⟩
  · unfold get_cached_stories
    rw [h]
  · unfold get_cached_stories
    rw [h]
  · unfold get_cached_stories
    rw [h]
    cases v with
    | obj fields => exact absurd rfl (hv fields)
    | null => rfl
    | bool b => rfl
    | num n => rfl
    | str s => rfl
    | arr items => rfl
    | dt d => rfl
  · rw [get_cached_stories_obj fs cid bid fields h, hst]

theorem c6_witness :
    get_cached_stories [("a_b.json", some (Value.str "nope"))] "a" "b" = .ok none :=
  c6_corrupt_lookup_absent [("a_b.json", some (Value.str "nope"))] "a" "b"
    (Or.inr (Or.inr (Or.inl ⟨Value.str "nope", rfl, fun _ hh => Value.noConfusion hh⟩)))

/-! ## Claim C10 -/

theorem parse_cached_stories_all_none (items : List Value)
    (hall : ∀ d ∈ items, parse_cached_story d = .ok none) :
    parse_cached_stories items = .ok [] := by
  induction items with
  | nil => rfl
  | cons d rest ih =>
    show (match parse_cached_story d with
      | .error e => Except.error e
      | .ok r =>
        match parse_cached_stories rest with
        | .error e2 => Except.error e2
        | .ok others =>
          match r with
          | some s => Except.ok (s :: others)
          | none => Except.ok others) = .ok []
    rw [hall d (by simp), ih (fun d2 hd2 => hall d2 (by simp [hd2]))]

/-- A story record whose `published_at` is a number past the platform
`time_t` range (the literal is `2^64`): `datetime.fromtimestamp` raises
`OverflowError` on it. -/
def overflowRecord : Value :=
  .obj [("id", .str "s"), ("title", .str "t"), ("url", .str "u"), ("source", .str "w"),
        ("published_at", .num 18446744073709551616)]

def c10fs : FS := [("a_b.json", some (Value.obj [("stories", Value.arr [overflowRecord])]))]

/-- C10 fails as stated: this persisted file is a JSON object with a
`stories` list, yet the lookup is not a hit — the record's huge timestamp
makes the `fromtimestamp` conversion overflow with an error that no
`except` clause catches, so `get_cached_stories` raises instead of
returning a story list. -/
theorem c10_counterexample :
    alLookup c10fs (cachePath "a" "b") =
      some (some (Value.obj [("stories", Value.arr [overflowRecord])])) ∧
    get_cached_stories c10fs "a" "b" = .error () :=
  ⟨rfl, rfl⟩

/-- C10 amended: a persisted JSON object with a `stories` list never yields
a cache miss: every record rejected with `ValueError` is skipped
individually (an entry whose records are all rejected that way gives the
empty list), and whenever the record loop completes the lookup is a hit with
exactly the surviving stories — but a record whose timestamp conversion
overflows raises an uncaught error through the lookup, aborting it rather
than reporting absence. -/
theorem c10_amended_hit_or_raise (fs : FS) (cid bid : String)
    (fields : List (String × Value)) (items : List Value)
    (h1 : alLookup fs (cachePath cid bid) = some (some (.obj fields)))
    (h2 : alLookup fields "stories" = some (.arr items)) :
    (∀ l, parse_cached_stories items = .ok l →
      get_cached_stories fs cid bid = .ok (some l)) ∧
    ((∀ d ∈ items, parse_cached_story d = .ok none) →
      get_cached_stories fs cid bid = .ok (some [])) ∧
    (parse_cached_stories items = .error () →
      get_cached_stories fs cid bid = .error ()) ∧
    get_cached_stories fs cid bid ≠ .ok none := by
  have hred : get_cached_stories fs cid bid =
      (match parse_cached_stories items with
       | .ok stories => .ok (some stories)
       | .error e => .error e) := by
    rw [get_cached_stories_obj fs cid bid fields h1, h2]
  refine ⟨?_, ?_, ?_, ?_⟩
  · intro l hl
    rw [hred, hl]
  · intro hall
    rw [hred, parse_cached_stories_all_none items hall]
  · intro he
    rw [hred, he]
  · rw [hred]
    cases hp : parse_cached_stories items with
    | ok l =>
      intro hh
      injection hh with hh2
      exact Option.noConfusion hh2
    | error e =>
      intro hh
      exact Except.noConfusion hh

theorem c10_witness :
    get_cached_stories
      [("a_b.json", some (Value.obj [("stories", Value.arr [Value.obj []])]))]
      "a" "b" = .ok (some []) := by
  have h := c10_amended_hit_or_raise
    [("a_b.json", some (Value.obj [("stories", Value.arr [Value.obj []])]))]
    "a" "b" [("stories", Value.arr [Value.obj []])] [Value.obj []] rfl rfl
  refine h.2.1 ?_
  intro d hd
  rw [List.mem_singleton] at hd
  rw [hd]
  rfl

/-! ## Claim C7 -/

def exStoryEmptyExcerpt : Story := ⟨"s1", "Title", "http://x", "src", 0, some ""⟩

/-- C7 fails as stated: a story with an empty-string excerpt does not round
trip; the cache read maps it back to a story with no excerpt, because the
reader keeps `excerpt` only when it is truthy. -/
theorem c7_counterexample :
    get_cached_stories (save_stories [] "tech" "b1" [exStoryEmptyExcerpt]) "tech" "b1" =
      .ok (some [⟨"s1", "Title", "http://x", "src", 0, none⟩]) ∧
    ([(⟨"s1", "Title", "http://x", "src", 0, none⟩ : Story)]) ≠ [exStoryEmptyExcerpt] :=
  ⟨rfl, by decide⟩

/-- C7 amended: storing a story list and reading back the same
`(categoryKey, batchId)` returns the same sequence, in order, provided no
story carries the empty string as its excerpt. -/
theorem c7_amended_roundtrip (fs : FS) (cid bid : String) (stories : List Story)
    (h : ∀ s ∈ stories, s.excerpt ≠ some "") :
    get_cached_stories (save_stories fs cid bid stories) cid bid = .ok (some stories) := by
  have hlk : alLookup (save_stories fs cid bid stories) (cachePath cid bid) =
      some (some (cache_file_value cid bid stories)) :=
    alLookup_insert_self fs (cachePath cid bid) _
  rw [get_cached_stories_obj (save_stories fs cid bid stories) cid bid
    [("batch_id", .str bid), ("category_id", .str cid),
     ("stories", .arr (stories.map story_to_dict))] hlk]
  show (match parse_cached_stories (stories.map story_to_dict) with
    | Except.ok l => Except.ok (some l)
    | Except.error e => Except.error e) = Except.ok (some stories)
  rw [parse_cached_stories_map stories h]

theorem c7_witness :
    get_cached_stories (save_stories [] "tech" "b1" [exStory]) "tech" "b1" =
      .ok (some [exStory]) :=
  c7_amended_roundtrip [] "tech" "b1" [exStory] (by decide)

/-! ## Claim C8 -/

def requiredPresent (data : List (String × Value)) : Bool :=
  required_fields.all (fun f => (alLookup data f).isSome)

def exceptIsOk {ε α : Type} : Except ε α → Bool
  | .ok _ => true
  | .error _ => false

/-- C8 fails as stated: a dictionary whose id/title/url/source values are
present but empty strings passes validation; `Story.from_api_response` never
checks non-emptiness. -/
theorem c8_counterexample :
    Story.from_api_response
      [("id", .str ""), ("title", .str ""), ("url", .str ""), ("source", .str ""),
       ("published_at", .num 0)] =
      .ok ⟨"", "", "", "", 0, none⟩ := rfl

theorem filter_isNone_isEmpty {α β : Type} (g : α → Option β) (l : List α) :
    (l.filter (fun f => (g f).isNone)).isEmpty = l.all (fun f => (g f).isSome) := by
  induction l with
  | nil => rfl
  | cons a rest ih =>
    rw [List.filter_cons, List.all_cons]
    cases hg : g a with
    | none => simp [hg]
    | some v => simpa [hg] using ih

/-- C8 amended: construction succeeds exactly when the five required keys
are present and `published_at` is normalisable; the string fields are
`str()`-coerced with no emptiness check. -/
theorem c8_amended_validation (data : List (String × Value)) :
    exceptIsOk (Story.from_api_response data) =
      (requiredPresent data &&
        exceptIsOk (parse_published_at ((alLookup data "published_at").getD .null))) := by
  unfold requiredPresent
  rw [← filter_isNone_isEmpty (alLookup data) required_fields]
  simp only [Story.from_api_response]
  cases hm : (required_fields.filter (fun f => (alLookup data f).isNone)).isEmpty with
  | false => rfl
  | true =>
    cases hpa : parse_published_at ((alLookup data "published_at").getD .null) with
    | error e => rfl
    | ok pa => rfl

/-! ## Claim C9 -/

/-- C9 is violated by the code: `get_categories` builds the candidate
dictionary with `cat_data.get(...)`, so a category element missing the
stable key (`categoryId`) passes the presence check with Python `None`
values and is returned as a `Category` whose name is the string `"None"`
instead of being dropped. -/
theorem c9_missing_key_not_dropped :
    get_categories (.obj [("categories", .arr [.obj [("id", .str "u1")]])]) =
      .ok [⟨"u1", "None", "None"⟩] := rfl

/-! ## Claim C1 -/

def c1Fetch : Category → FetchOut := fun _ => .err

def c1InitState : LoadState := ⟨[("tech", [exStoryB1])], save_stories [] "tech" "b1" [exStoryB1]⟩

def c1Out : LoadOut := ⟨⟨[("tech", [exStoryB1])], []⟩, some "b2", ["tech"], .done⟩

/-- C1 fails as stated: a refresh cycle that resolves batch `b2` and whose
only category misses the `b2` cache and fails to fetch still completes, yet
the final mapping retains the story list that was loaded under the previous
batch `b1` — stale content is shown for a category whose fetch failed. -/
theorem c1_counterexample :
    load_stories c1Fetch c1InitState (some "b1") (some "b2") [catTech] = .ok c1Out ∧
    c1Out.outcome = .done ∧
    get_cached_stories c1InitState.fs "tech" "b2" = .ok none ∧
    c1Fetch catTech = .err ∧
    alLookup c1Out.state.mapping "tech" = some [exStoryB1] ∧
    alLookup c1InitState.mapping "tech" = some [exStoryB1] :=
  ⟨rfl, rfl, rfl, rfl, rfl, rfl⟩

/-- C1 amended: after a completed cycle with resolved batch id `b`, every
remaining `*.json` cache file has `b` in its name (so entries keyed by `b`
are retained), and the final mapping holds the batch-`b` data for every
category that was a cache hit or a non-empty successful fetch — but a
category whose fetch failed or returned no stories keeps its previous,
possibly stale, mapping entry. -/
theorem c1_amended (fetch : Category → FetchOut) (st : LoadState)
    (pc : Option String) (b : String) (cats : List Category) (out : LoadOut)
    (hload : load_stories fetch st pc (some b) cats = .ok out)
    (hdone : out.outcome = .done)
    (hnodup : (cats.map (fun c2 => c2.name)).Nodup) :
    (∀ e ∈ out.state.fs, matchesGlobJson e.1 = true → strContains b e.1 = true) ∧
    (∀ c ∈ cats,
      (∀ ss, get_cached_stories st.fs c.name b = .ok (some ss) →
        alLookup out.state.mapping c.name = some ss) ∧
      (get_cached_stories st.fs c.name b = .ok none →
        (∀ ss bid, fetch c = .ok ss bid → ss ≠ [] →
          alLookup out.state.mapping c.name = some ss) ∧
        ((fetch c = .err ∨ ∃ bid, fetch c = .ok [] bid) →
          alLookup out.state.mapping c.name = alLookup st.mapping c.name))) := by
  constructor
  · obtain ⟨-, -, hits, misses, -, -, hfs, -, -⟩ :=
      load_stories_done fetch st pc b cats out hload hdone
    intro e he hjson
    rw [hfs] at he
    unfold clear_old_caches at he
    have hk := (List.mem_filter.mp he).2
    unfold keptByClear at hk
    rw [hjson] at hk
    simpa using hk
  · intro c hc
    exact load_mapping_spec fetch st pc b cats out c hload hdone hnodup hc

theorem c1_witness :
    (∀ e ∈ c1Out.state.fs, matchesGlobJson e.1 = true → strContains "b2" e.1 = true) ∧
    (∀ c ∈ [catTech],
      (∀ ss, get_cached_stories c1InitState.fs c.name "b2" = .ok (some ss) →
        alLookup c1Out.state.mapping c.name = some ss) ∧
      (get_cached_stories c1InitState.fs c.name "b2" = .ok none →
        (∀ ss bid, c1Fetch c = .ok ss bid → ss ≠ [] →
          alLookup c1Out.state.mapping c.name = some ss) ∧
        ((c1Fetch c = .err ∨ ∃ bid, c1Fetch c = .ok [] bid) →
          alLookup c1Out.state.mapping c.name = alLookup c1InitState.mapping c.name))) :=
  c1_amended c1Fetch c1InitState (some "b1") "b2" [catTech] c1Out rfl rfl (by decide)

/-! ## Claim C2 -/

def c2Fetch : Category → FetchOut := fun _ => .ok [exStory] "b9"

def c2Out : LoadOut := ⟨⟨[("tech", [exStory])], []⟩, some "b1", ["tech"], .done⟩

/-- C2 fails as stated: with resolved batch `b1` and a fetch response
reporting batch `b9`, the stories are written to `tech_b9.json` — keyed by
the response's batch id — while nothing is written under the coordinator's
resolved `(tech, b1)`; the pruning step then deletes the `b9` entry, so the
completed cycle ends with no cache entry at all. -/
theorem c2_counterexample :
    classifyCategories ([] : FS) "b1" [catTech] = .ok ([], [catTech]) ∧
    (storeResults ⟨[], []⟩ ([catTech].map (fetch_category_stories c2Fetch))).fs =
      [(cachePath "tech" "b9", some (cache_file_value "tech" "b9" [exStory]))] ∧
    alLookup (storeResults ⟨[], []⟩ ([catTech].map (fetch_category_stories c2Fetch))).fs
      (cachePath "tech" "b1") = none ∧
    load_stories c2Fetch ⟨[], []⟩ none (some "b1") [catTech] = .ok c2Out ∧
    alLookup c2Out.state.fs (cachePath "tech" "b1") = none ∧
    alLookup c2Out.state.fs (cachePath "tech" "b9") = none :=
  ⟨rfl, rfl, rfl, rfl, rfl, rfl⟩

/-- C2 amended: a category whose fetch succeeds with a non-empty list is
saved under `(categoryKey, batchId-of-the-response)`, not under the
coordinator's resolved batch id; when the response batch id does not occur
in that file name's pruning test against the resolved id, the entry is
deleted again by the pruning step of the same cycle. -/
theorem c2_amended (fetch : Category → FetchOut) (st : LoadState)
    (pc : Option String) (b : String) (cats : List Category) (out : LoadOut)
    (c : Category) (ss : List Story) (bid : String)
    (hload : load_stories fetch st pc (some b) cats = .ok out)
    (hdone : out.outcome = .done)
    (hc : c ∈ cats)
    (hget : get_cached_stories st.fs c.name b = .ok none)
    (hfetch : fetch c = .ok ss bid) (hne : ss ≠ [])
    (hpaths : (((cats.filter (isMissCat st.fs b)).map
      (fetch_category_stories fetch)).filterMap writePath).Nodup) :
    alLookup (storeResults
        ⟨applyHits st.mapping (cats.filterMap (hitEntry st.fs b)), st.fs⟩
        ((cats.filter (isMissCat st.fs b)).map (fetch_category_stories fetch))).fs
      (cachePath c.name bid) = some (some (cache_file_value c.name bid ss)) ∧
    (strContains b (cachePath c.name bid) = false →
      alLookup out.state.fs (cachePath c.name bid) = none) := by
  obtain ⟨-, -, hits, misses, hcl, -, hfs, -, -⟩ :=
    load_stories_done fetch st pc b cats out hload hdone
  constructor
  · have hmiss : c ∈ cats.filter (isMissCat st.fs b) := by
      refine List.mem_filter.mpr ⟨hc, ?_⟩
      unfold isMissCat
      rw [hget]
    have hmemres : (c.name, ss, bid) ∈
        (cats.filter (isMissCat st.fs b)).map (fetch_category_stories fetch) := by
      refine List.mem_map.mpr ⟨c, hmiss, ?_⟩
      unfold fetch_category_stories
      rw [hfetch]
    exact storeResults_fs_written _ _ _ _ _ hmemres hne hpaths
  · intro hnc
    have hkept : keptByClear b (cachePath c.name bid) = false := by
      unfold keptByClear
      rw [matchesGlobJson_cachePath, hnc]
      rfl
    rw [hfs, clear_old_caches_lookup,
      if_neg (by rw [hkept]; exact Bool.false_ne_true)]

theorem c2_witness :
    alLookup (storeResults
        ⟨applyHits ([] : List (String × List Story))
          ([catTech].filterMap (hitEntry ([] : FS) "b1")), []⟩
        (([catTech].filter (isMissCat ([] : FS) "b1")).map
          (fetch_category_stories c2Fetch))).fs
      (cachePath "tech" "b9") = some (some (cache_file_value "tech" "b9" [exStory])) ∧
    (strContains "b1" (cachePath "tech" "b9") = false →
      alLookup c2Out.state.fs (cachePath "tech" "b9") = none) :=
  c2_amended c2Fetch ⟨[], []⟩ none "b1" [catTech] c2Out catTech [exStory] "b9"
    rfl rfl (by decide) rfl rfl (by decide) (by decide)

/-! ## Claim C3 -/

def c3Fetch : Category → FetchOut := fun _ => .ok [] "b1"

def c3Out1 : LoadOut := ⟨⟨[], []⟩, some "b1", ["tech"], .done⟩

/-- C3 fails as stated: a category whose fetch succeeds with an empty story
list is never cached (the store step skips falsy lists), so a second refresh
under the unchanged batch id dispatches the same fetch again instead of
performing zero fetch calls. -/
theorem c3_counterexample :
    load_stories c3Fetch ⟨[], []⟩ none (some "b1") [catTech] = .ok c3Out1 ∧
    c3Out1.outcome = .done ∧
    load_stories c3Fetch c3Out1.state c3Out1.current_batch_id (some "b1") [catTech] =
      .ok c3Out1 ∧
    c3Out1.fetched = ["tech"] ∧
    c3Out1.fetched ≠ [] :=
  ⟨rfl, rfl, rfl, rfl, by decide⟩

/-- C3 amended: if a refresh cycle completes with batch id `b` and every
selected category either hit the cache or fetched a non-empty story list
whose response batch id is `b`, then a second refresh over the same
categories with the same unchanged batch performs zero fetch calls (all
cache hits) and leaves the cache byte-for-byte unchanged. -/
theorem c3_amended (fetch : Category → FetchOut) (st : LoadState)
    (pc pc2 : Option String) (b : String) (cats : List Category) (out : LoadOut)
    (hload : load_stories fetch st pc (some b) cats = .ok out)
    (hdone : out.outcome = .done)
    (hgood : ∀ c ∈ cats, (∃ ss, get_cached_stories st.fs c.name b = .ok (some ss)) ∨
             (∃ ss, fetch c = .ok ss b ∧ ss ≠ [])) :
    load_stories fetch out.state pc2 (some b) cats =
      .ok ⟨⟨applyHits out.state.mapping (cats.filterMap (hitEntry out.state.fs b)),
            out.state.fs⟩, some b, [], .done⟩ := by
  obtain ⟨hcats, hb, hits0, misses0, -, -, hfs, -, -⟩ :=
    load_stories_done fetch st pc b cats out hload hdone
  have hhit2 : ∀ c ∈ cats, ∃ ss, get_cached_stories out.state.fs c.name b = .ok (some ss) :=
    fun c hc => load_fs_good fetch st pc b cats out c hload hdone hc (hgood c hc)
  have hlk2 : ∀ c ∈ cats, lookupOk out.state.fs b c = true := by
    intro c hc
    obtain ⟨ss, hss⟩ := hhit2 c hc
    unfold lookupOk
    rw [hss]
  have hcl2 := classifyCategories_eq out.state.fs b cats hlk2
  have hm2 : cats.filter (isMissCat out.state.fs b) = [] := by
    rw [List.filter_eq_nil_iff]
    intro c hc
    obtain ⟨ss, hss⟩ := hhit2 c hc
    unfold isMissCat
    rw [hss]
    intro hh
    exact Bool.noConfusion hh
  have hfsfix : clear_old_caches out.state.fs b = out.state.fs := by
    rw [hfs, clear_old_caches_idem]
  cases cats with
  | nil => exact absurd rfl hcats
  | cons c rest =>
    have hred : load_stories fetch out.state pc2 (some b) (c :: rest) = (do
      let (hits, misses) ← classifyCategories out.state.fs b (c :: rest)
      let results := misses.map (fetch_category_stories fetch)
      let st2 := storeResults ⟨applyHits out.state.mapping hits, out.state.fs⟩ results
      Except.ok (⟨⟨st2.mapping, clear_old_caches st2.fs b⟩, some b,
        misses.map (fun c2 => c2.name), .done⟩ : LoadOut)) := by
      show (if b = "" then _ else _) = _
      rw [if_neg hb]
    rw [hred, hcl2, hm2]
    show Except.ok (⟨⟨applyHits out.state.mapping
        ((c :: rest).filterMap (hitEntry out.state.fs b)),
        clear_old_caches out.state.fs b⟩, some b, [], .done⟩ : LoadOut) = _
    rw [hfsfix]

def c3wFetch : Category → FetchOut := fun _ => .err

def c3wFs : FS := save_stories [] "tech" "b1" [exStory]

def c3wOut : LoadOut := ⟨⟨[("tech", [exStory])], c3wFs⟩, some "b1", [], .done⟩

theorem c3_witness :
    load_stories c3wFetch c3wOut.state none (some "b1") [catTech] =
      .ok ⟨⟨applyHits c3wOut.state.mapping
          ([catTech].filterMap (hitEntry c3wOut.state.fs "b1")),
          c3wOut.state.fs⟩, some "b1", [], .done⟩ :=
  c3_amended c3wFetch ⟨[], c3wFs⟩ (some "b0") none "b1" [catTech] c3wOut rfl rfl
    (by
      intro c hc
      rw [List.mem_singleton] at hc
      rw [hc]
      exact Or.inl ⟨[exStory], rfl⟩)

/-! ## Claim C4 -/

def catA : Category := ⟨"uA", "A", "CatA"⟩

def catB : Category := ⟨"uB", "B", "CatB"⟩

def catC : Category := ⟨"uC", "C", "CatC"⟩

def exStoryA : Story := ⟨"sa", "TitleA", "http://a", "src", 0, none⟩

def exStoryC : Story := ⟨"sc", "TitleC", "http://c", "src", 0, none⟩

def c4Fetch : Category → FetchOut := fun c =>
  if c.name = "A" then .ok [exStoryA] "b1"
  else if c.name = "C" then .ok [exStoryC] "b1"
  else .err

def c4Out : LoadOut := ⟨⟨[("A", [exStoryA]), ("C", [exStoryC])],
  [(cachePath "A" "b1", some (cache_file_value "A" "b1" [exStoryA])),
   (cachePath "C" "b1", some (cache_file_value "C" "b1" [exStoryC]))]⟩,
  some "b1", ["A", "B", "C"], .done⟩

/-- C4 fails as stated: when B's fetch fails while A and C succeed, A and C
get correct entries and nothing is merged into B, but B is simply absent
from the final mapping — it is not an entry mapping to an empty list, and no
failure reason is recorded anywhere in the emitted result. -/
theorem c4_counterexample :
    load_stories c4Fetch ⟨[], []⟩ none (some "b1") [catA, catB, catC] = .ok c4Out ∧
    alLookup c4Out.state.mapping "A" = some [exStoryA] ∧
    alLookup c4Out.state.mapping "C" = some [exStoryC] ∧
    alLookup c4Out.state.mapping "B" = none ∧
    alLookup c4Out.state.mapping "B" ≠ some [] :=
  ⟨rfl, rfl, rfl, rfl, by decide⟩

/-- C4 amended: a fetch failure for B affects only B — A and C end up with
exactly their fetched stories, B's mapping entry is left unchanged from the
previous state (so a fresh state leaves B absent, which the screen displays
as an empty list via lookup-with-default), and B's failure is not merged
into A or C. -/
theorem c4_amended (fetch : Category → FetchOut) (st : LoadState)
    (pc : Option String) (b : String) (cA cB cC : Category) (out : LoadOut)
    (asA csC : List Story) (bidA bidC : String)
    (hload : load_stories fetch st pc (some b) [cA, cB, cC] = .ok out)
    (hdone : out.outcome = .done)
    (hnodup : ([cA, cB, cC].map (fun c2 => c2.name)).Nodup)
    (hmA : get_cached_stories st.fs cA.name b = .ok none)
    (hmB : get_cached_stories st.fs cB.name b = .ok none)
    (hmC : get_cached_stories st.fs cC.name b = .ok none)
    (hA : fetch cA = .ok asA bidA) (hAne : asA ≠ [])
    (hB : fetch cB = .err)
    (hC : fetch cC = .ok csC bidC) (hCne : csC ≠ []) :
    alLookup out.state.mapping cA.name = some asA ∧
    alLookup out.state.mapping cC.name = some csC ∧
    alLookup out.state.mapping cB.name = alLookup st.mapping cB.name ∧
    (alLookup st.mapping cB.name = none →
      displayedStories out.state.mapping cB.name = []) := by
  have hsA := load_mapping_spec fetch st pc b [cA, cB, cC] out cA hload hdone hnodup (by simp)
  have hsB := load_mapping_spec fetch st pc b [cA, cB, cC] out cB hload hdone hnodup (by simp)
  have hsC := load_mapping_spec fetch st pc b [cA, cB, cC] out cC hload hdone hnodup (by simp)
  refine ⟨(hsA.2 hmA).1 asA bidA hA hAne, (hsC.2 hmC).1 csC bidC hC hCne,
    (hsB.2 hmB).2 (Or.inl hB), ?_⟩
  intro hnone
  unfold displayedStories
  rw [(hsB.2 hmB).2 (Or.inl hB), hnone]
  rfl

theorem c4_witness :
    alLookup c4Out.state.mapping catA.name = some [exStoryA] ∧
    alLookup c4Out.state.mapping catC.name = some [exStoryC] ∧
    alLookup c4Out.state.mapping catB.name = alLookup ([] : List (String × List Story)) catB.name ∧
    (alLookup ([] : List (String × List Story)) catB.name = none →
      displayedStories c4Out.state.mapping catB.name = []) :=
  c4_amended c4Fetch ⟨[], []⟩ none "b1" catA catB catC c4Out [exStoryA] [exStoryC] "b1" "b1"
    rfl rfl (by decide) rfl rfl rfl rfl (by decide) rfl rfl (by decide)
